import Mathlib

/-
Verification of the orchestration core of the nucypher CLI (cli/main.py):
the dependency-ordered contract deployment command and the swarm simulation
command.  Definitions are shallow embeddings of the Python source; external
collaborators (the Deployer classes, the ledger, the process spawner and the
standard-library random source) are modelled at their interface boundary.
-/

namespace NucypherCLI

/-- A byte string, modelled as a list of byte values. -/
abbrev Bytes := List Nat

/-- A deployment secret paired with its confirmation.  In the source
(cli/main.py lines 830-831) the secret is drawn from os.urandom(32) and the
confirmation is a copy of it. -/
structure SecretCommitment where
  secret : Bytes
  confirmation : Bytes
deriving DecidableEq

/-- Validity of a secret commitment: both values are exactly 32 bytes long and
equal.  These are exactly the checks appearing in the source in
cli/main.py lines 833-842 (length check and equality check). -/
def SecretCommitment.isValid (s : SecretCommitment) : Bool :=
  s.secret.length == 32 && s.confirmation.length == 32 && s.secret == s.confirmation

/-- An opaque agent handle, produced by a successful make_agent call of the
external deployer classes.  Only its identity matters to the CLI. -/
structure AgentHandle where
  handleId : Nat
deriving DecidableEq

/-- One row of the DeployerInfo table built in cli/main.py lines 771-794:
whether the unit is upgradeable, the name its agent is registered under, and
the agent name of the unit it depends on, if any. -/
structure DeployerInfo where
  upgradeable : Bool
  agentName : String
  dependant : Option String
deriving DecidableEq

/-- The ordered deployer table of cli/main.py lines 772-794: the token unit,
then the miner escrow depending on the token agent, then the policy manager
depending on the miner agent.  Keys are the contract names. -/
def deployers : List (String × DeployerInfo) :=
  [("NucypherToken", ⟨false, "token_agent", none⟩),
   ("MinerEscrow", ⟨true, "miner_agent", some "token_agent"⟩),
   ("PolicyManager", ⟨true, "policy_agent", some "miner_agent"⟩)]

/-- The external world as seen by the deploy command: whether the deployer
address is set (cli/main.py line 769), the secret bytes os.urandom produces
for each contract (line 830), whether the external deploy transaction of each
contract succeeds, the transaction (label, id) pairs it returns, and the agent
handle make_agent produces for each contract. -/
structure Env where
  addressSet : Bool
  secretFor : String → Bytes
  deployOk : String → Bool
  txsFor : String → List (String × String)
  makeAgent : String → AgentHandle

/-- Failure outcomes of processing one unit in the deploy command.
unknownDependency is the KeyError at the dependant-agent lookup of
cli/main.py line 824; armFailed is the click.Abort of lines 856-859, whose
message names the contract; deployFailed is the DeployTransactionError the
external deployer raises from line 866, carrying the unit name. -/
inductive DeployError where
  | unknownDependency (agentName : String)
  | armFailed (contractName : String) (disqualifications : List String)
  | deployFailed (contractName : String)
deriving DecidableEq

/-- The unit a deploy error names, when it names one. -/
def DeployError.namedUnit : DeployError → Option String
  | .unknownDependency _ => none
  | .armFailed n _ => some n
  | .deployFailed n => some n

/-- Observable steps of the deploy command, in execution order: interactive
confirmation prompts, deployer construction (recording the dependency agent
handle passed to the constructor), and the arm, deploy and make_agent calls. -/
inductive Event where
  | promptConfirm (message : String)
  | constructDeployer (contractName : String) (dependencyAgent : Option AgentHandle)
  | armCall (contractName : String)
  | deployCall (contractName : String)
  | makeAgentCall (contractName : String)
deriving DecidableEq

/-- Whether an event is an interactive confirmation prompt. -/
def Event.isPrompt : Event → Bool
  | .promptConfirm _ => true
  | _ => false

/-- Whether a fallible result is an error. -/
def isErr {ε α : Type} : Except ε α → Bool
  | .error _ => true
  | .ok _ => false

/-- The mutable state of the deploy command: the aggregated deployment
transactions (cli/main.py line 801, keyed by contract name, insertion
ordered) and the agent registry (line 802, keyed by agent name). -/
structure DeployState where
  transactions : List (String × List (String × String))
  agents : List (String × AgentHandle)
deriving DecidableEq

/-- Both dictionaries start empty (cli/main.py lines 801-802). -/
def emptyDeployState : DeployState := ⟨[], []⟩

/-- Modelled from the spec: the arm call of the external Deployer classes
(nucypher.blockchain.eth.deployers, not under src/), per spec section 4.2.
Each violated precondition contributes one disqualification string: the
deployer address must be set; an upgradeable unit must have a supplied and
valid secret commitment; a dependent unit must have its dependency agent
handle.  is_armed is true iff the disqualification list is empty. -/
def armDeployer (addressSet : Bool) (upgradeable : Bool)
    (secret : Option SecretCommitment)
    (dependencyRequired : Bool) (dependencyAgent : Option AgentHandle) :
    Bool × List String :=
  let d1 := if addressSet then [] else ["deployer address is not set"]
  let d2 :=
    if upgradeable then
      match secret with
      | none => ["no deployment secret was supplied"]
      | some s =>
        (if s.secret.length == 32 && s.confirmation.length == 32 then []
         else ["deployment secret must be 32 bytes"]) ++
        (if s.secret == s.confirmation then []
         else ["deployment secret does not match its confirmation"])
    else []
  let d3 :=
    if dependencyRequired && dependencyAgent.isNone then
      ["dependency agent handle is missing"]
    else []
  let disq := d1 ++ d2 ++ d3
  (disq.isEmpty, disq)

/-- The body of __deploy_contract (cli/main.py lines 812-872) after the
dependant lookup succeeded: collect the secret for an upgradeable unit
(lines 826-845, secret and confirmation are the same urandom draw), construct
the deployer with the dependency agent (line 847), confirm and arm
(lines 852-859, aborting with the contract name on disqualification), confirm
and deploy (lines 864-867, recording the transactions), then make the agent
and register it (lines 869-870). -/
def deployContractCore (env : Env) (force : Bool) (contractName : String)
    (info : DeployerInfo) (depAgent : Option AgentHandle) (st : DeployState) :
    Except DeployError (List (String × String) × AgentHandle) × DeployState × List Event :=
  let secret : Option SecretCommitment :=
    if info.upgradeable then
      some ⟨env.secretFor contractName, env.secretFor contractName⟩
    else none
  let evConstruct := [Event.constructDeployer contractName depAgent]
  let evArmPrompt :=
    if force then [] else [Event.promptConfirm ("Arm " ++ contractName ++ "?")]
  let armRes := armDeployer env.addressSet info.upgradeable secret
      info.dependant.isSome depAgent
  if armRes.1 then
    let evDeployPrompt :=
      if force then [] else [Event.promptConfirm ("Deploy " ++ contractName ++ "?")]
    if env.deployOk contractName then
      let txs := env.txsFor contractName
      let agent := env.makeAgent contractName
      let st' : DeployState :=
        ⟨st.transactions ++ [(contractName, txs)], st.agents ++ [(info.agentName, agent)]⟩
      (.ok (txs, agent), st',
        evConstruct ++ evArmPrompt ++ [Event.armCall contractName] ++ evDeployPrompt ++
          [Event.deployCall contractName, Event.makeAgentCall contractName])
    else
      (.error (.deployFailed contractName), st,
        evConstruct ++ evArmPrompt ++ [Event.armCall contractName] ++ evDeployPrompt ++
          [Event.deployCall contractName])
  else
    (.error (.armFailed contractName armRes.2), st,
      evConstruct ++ evArmPrompt ++ [Event.armCall contractName])

/-- __deploy_contract (cli/main.py lines 812-872): the dependant agent is
looked up in the registry before the deployer is constructed (lines 823-824);
a missing handle is a KeyError that aborts the unit before any deployer is
constructed. -/
def deployContract (env : Env) (force : Bool) (contractName : String)
    (info : DeployerInfo) (st : DeployState) :
    Except DeployError (List (String × String) × AgentHandle) × DeployState × List Event :=
  match info.dependant with
  | none => deployContractCore env force contractName info none st
  | some dep =>
    match st.agents.lookup dep with
    | none => (.error (.unknownDependency dep), st, [])
    | some agent => deployContractCore env force contractName info (some agent) st

/-- The deploy-all loop of cli/main.py lines 891-895: process the deployer
table in order, stopping at the first error (a raised exception aborts the
remaining iterations), threading the shared state. -/
def deployAllFrom (env : Env) (force : Bool) :
    List (String × DeployerInfo) → DeployState →
    Except DeployError Unit × DeployState × List Event
  | [], st => (.ok (), st, [])
  | (contractName, info) :: rest, st =>
    match deployContract env force contractName info st with
    | (.ok _, st', evs) =>
      match deployAllFrom env force rest st' with
      | (r, st'', evs') => (r, st'', evs ++ evs')
    | (.error e, st', evs) => (.error e, st', evs)

/-- The deploy-all path: run the whole deployer table from empty state. -/
def deployAll (env : Env) (force : Bool) :
    Except DeployError Unit × DeployState × List Event :=
  deployAllFrom env force deployers emptyDeployState

/-- The single-contract path of cli/main.py lines 874-886: look the requested
name up in the deployer table (a missing name is only echoed, deploying
nothing), then run __deploy_contract once against the current registry. -/
def deploySingle (env : Env) (force : Bool) (contractName : String)
    (st : DeployState) :
    Option (Except DeployError (List (String × String) × AgentHandle) × DeployState × List Event) :=
  match deployers.lookup contractName with
  | none => none
  | some info => some (deployContract env force contractName info st)

/-- C1: in the deploy-all path over the Token, MinerEscrow and PolicyManager
chain, the per-unit deployers are constructed and run in exactly that order,
and each dependent deployer is constructed with the agent handle produced by
its dependency's make_agent call before the dependent unit is armed: the
non-prompt event trace is exactly construct, arm, deploy, make_agent per unit,
with MinerEscrow constructed from the NucypherToken agent and PolicyManager
from the MinerEscrow agent. -/
theorem deployAll_order (env : Env) (force : Bool)
    (haddr : env.addressSet = true)
    (hsec : ∀ n, (env.secretFor n).length = 32)
    (hok : ∀ n, env.deployOk n = true) :
    ((deployAll env force).2.2).filter (fun e => !e.isPrompt) =
      [Event.constructDeployer "NucypherToken" none,
       Event.armCall "NucypherToken",
       Event.deployCall "NucypherToken",
       Event.makeAgentCall "NucypherToken",
       Event.constructDeployer "MinerEscrow" (some (env.makeAgent "NucypherToken")),
       Event.armCall "MinerEscrow",
       Event.deployCall "MinerEscrow",
       Event.makeAgentCall "MinerEscrow",
       Event.constructDeployer "PolicyManager" (some (env.makeAgent "MinerEscrow")),
       Event.armCall "PolicyManager",
       Event.deployCall "PolicyManager",
       Event.makeAgentCall "PolicyManager"] := by
  cases force <;>
    simp [deployAll, deployAllFrom, deployers, deployContract, deployContractCore,
          armDeployer, emptyDeployState, List.lookup, hok, hsec, haddr, Event.isPrompt]

/-- A concrete environment in which every external call succeeds. -/
def envAllOk : Env :=
  ⟨true, fun _ => List.replicate 32 0, fun _ => true,
   fun _ => [("deploy", "0xabc")], fun n => ⟨n.length⟩⟩

/-- Witness for C1: the trace equation evaluated in the all-success
environment with force set. -/
theorem deployAll_order_witness :
    ((deployAll envAllOk true).2.2).filter (fun e => !e.isPrompt) =
      [Event.constructDeployer "NucypherToken" none,
       Event.armCall "NucypherToken",
       Event.deployCall "NucypherToken",
       Event.makeAgentCall "NucypherToken",
       Event.constructDeployer "MinerEscrow" (some (envAllOk.makeAgent "NucypherToken")),
       Event.armCall "MinerEscrow",
       Event.deployCall "MinerEscrow",
       Event.makeAgentCall "MinerEscrow",
       Event.constructDeployer "PolicyManager" (some (envAllOk.makeAgent "MinerEscrow")),
       Event.armCall "PolicyManager",
       Event.deployCall "PolicyManager",
       Event.makeAgentCall "PolicyManager"] :=
  deployAll_order envAllOk true rfl (fun _ => by simp [envAllOk]) (fun _ => rfl)

/-- C2: in the deploy-all path over the three units, if arming or deploying
the second unit (MinerEscrow) fails, the run aborts with an error naming
MinerEscrow, the PolicyManager deployer is never constructed, and the first
unit's transaction record is still present in the aggregated deployment
transactions. -/
theorem deployAll_failfast (env : Env) (force : Bool)
    (haddr : env.addressSet = true)
    (htok : env.deployOk "NucypherToken" = true)
    (hfail : (env.secretFor "MinerEscrow").length ≠ 32 ∨
             env.deployOk "MinerEscrow" = false) :
    (∃ e, (deployAll env force).1 = .error e ∧ e.namedUnit = some "MinerEscrow") ∧
    (deployAll env force).2.1.transactions =
      [("NucypherToken", env.txsFor "NucypherToken")] ∧
    (∀ a, Event.constructDeployer "PolicyManager" a ∉ (deployAll env force).2.2) := by
  by_cases h32 : (env.secretFor "MinerEscrow").length = 32
  · have hdep : env.deployOk "MinerEscrow" = false := by
      rcases hfail with h | h
      · exact absurd h32 h
      · exact h
    refine ⟨⟨.deployFailed "MinerEscrow", ?_, rfl⟩, ?_, ?_⟩ <;>
      cases force <;>
        simp [deployAll, deployAllFrom, deployers, deployContract, deployContractCore,
              armDeployer, emptyDeployState, List.lookup, haddr, htok, h32, hdep,
              DeployError.namedUnit]
  · have h32b : ((env.secretFor "MinerEscrow").length == 32) = false := by
      simp [h32]
    refine ⟨⟨.armFailed "MinerEscrow" ["deployment secret must be 32 bytes"], ?_, rfl⟩, ?_, ?_⟩ <;>
      cases force <;>
        simp [deployAll, deployAllFrom, deployers, deployContract, deployContractCore,
              armDeployer, emptyDeployState, List.lookup, haddr, htok, h32b,
              DeployError.namedUnit]

/-- A concrete environment in which only the MinerEscrow deploy transaction
fails. -/
def envEscrowFail : Env :=
  ⟨true, fun _ => List.replicate 32 0, fun n => !(n == "MinerEscrow"),
   fun _ => [("deploy", "0xabc")], fun n => ⟨n.length⟩⟩

/-- Witness for C2: with the MinerEscrow deploy failing, the run errors naming
MinerEscrow, keeps the token record, and never constructs the PolicyManager
deployer. -/
theorem deployAll_failfast_witness :
    (∃ e, (deployAll envEscrowFail false).1 = .error e ∧
          e.namedUnit = some "MinerEscrow") ∧
    (deployAll envEscrowFail false).2.1.transactions =
      [("NucypherToken", envEscrowFail.txsFor "NucypherToken")] ∧
    (∀ a, Event.constructDeployer "PolicyManager" a ∉ (deployAll envEscrowFail false).2.2) :=
  deployAll_failfast envEscrowFail false rfl (by decide) (Or.inr (by decide))

/-- C3: a secret commitment is accepted iff secret and confirmation are both
exactly 32 bytes and equal; arming an upgradeeable unit with a valid pair
yields is_armed true with no disqualifications; a 31-byte secret yields
is_armed false with a length-related disqualification; and a unit whose
supplied secret has the wrong length is rejected with an error before any
deploy call is attempted. -/
theorem arm_secret_commitment :
    (∀ s : SecretCommitment,
       (armDeployer true true (some s) false none).1 = true ↔
         (s.secret.length = 32 ∧ s.confirmation.length = 32 ∧
          s.secret = s.confirmation)) ∧
    (∀ s : SecretCommitment, s.isValid = true →
       armDeployer true true (some s) false none = (true, [])) ∧
    (∀ s : SecretCommitment, s.secret.length = 31 →
       (armDeployer true true (some s) false none).1 = false ∧
       "deployment secret must be 32 bytes" ∈
         (armDeployer true true (some s) false none).2) ∧
    (∀ (env : Env) (force : Bool) (contractName : String) (info : DeployerInfo)
       (st : DeployState), info.upgradeable = true →
       (env.secretFor contractName).length ≠ 32 →
       isErr (deployContract env force contractName info st).1 = true ∧
       (∀ n, Event.deployCall n ∉ (deployContract env force contractName info st).2.2)) := by
  refine ⟨?_, ?_, ?_, ?_⟩
  · intro s
    simp [armDeployer]
    by_cases h1 : s.secret.length = 32 <;>
      by_cases h2 : s.confirmation.length = 32 <;>
        by_cases h3 : s.secret = s.confirmation <;>
          simp [h1, h2, h3]
  · intro s hv
    simp [SecretCommitment.isValid] at hv
    obtain ⟨⟨h1, h2⟩, h3⟩ := hv
    simp [armDeployer, h1, h2, h3]
  · intro s h31
    have h32 : (s.secret.length == 32) = false := by simp [h31]
    constructor <;> simp [armDeployer, h32]
  · intro env force contractName info st hupg h32
    have h32b : ((env.secretFor contractName).length == 32) = false := by simp [h32]
    obtain ⟨upg, agentName, dependant⟩ := info
    simp only at hupg
    subst hupg
    cases dependant with
    | none =>
      constructor
      · cases force <;>
          simp [deployContract, deployContractCore, armDeployer, h32b, isErr]
      · intro n
        cases force <;> simp [deployContract, deployContractCore, armDeployer, h32b]
    | some dep =>
      cases hl : st.agents.lookup dep with
      | none =>
        constructor
        · simp [deployContract, hl, isErr]
        · intro n
          simp [deployContract, hl]
      | some a =>
        constructor
        · cases force <;>
            simp [deployContract, hl, deployContractCore, armDeployer, h32b, isErr]
        · intro n
          cases force <;> simp [deployContract, hl, deployContractCore, armDeployer, h32b]

/-- A concrete environment producing 31-byte secrets. -/
def envShortSecret : Env :=
  ⟨true, fun _ => List.replicate 31 0, fun _ => true,
   fun _ => [("deploy", "0xabc")], fun n => ⟨n.length⟩⟩

/-- Witness for C3: the valid 32-byte pair arms cleanly, the 31-byte pair is
disqualified for length, and deploying an upgradeable unit with a 31-byte
secret errors without any deploy call. -/
theorem arm_secret_commitment_witness :
    armDeployer true true
      (some ⟨List.replicate 32 0, List.replicate 32 0⟩) false none = (true, []) ∧
    ((armDeployer true true
        (some ⟨List.replicate 31 0, List.replicate 31 0⟩) false none).1 = false ∧
     "deployment secret must be 32 bytes" ∈
       (armDeployer true true
         (some ⟨List.replicate 31 0, List.replicate 31 0⟩) false none).2) ∧
    (isErr (deployContract envShortSecret true "MinerEscrow"
              ⟨true, "miner_agent", none⟩ emptyDeployState).1 = true ∧
     (∀ n, Event.deployCall n ∉
        (deployContract envShortSecret true "MinerEscrow"
          ⟨true, "miner_agent", none⟩ emptyDeployState).2.2)) :=
  ⟨arm_secret_commitment.2.1 ⟨List.replicate 32 0, List.replicate 32 0⟩ (by decide),
   arm_secret_commitment.2.2.1 ⟨List.replicate 31 0, List.replicate 31 0⟩ (by decide),
   arm_secret_commitment.2.2.2 envShortSecret true "MinerEscrow"
     ⟨true, "miner_agent", none⟩ emptyDeployState rfl (by decide)⟩

/-- C4: deploying the single MinerEscrow unit requires the token agent handle
to already be in the agent registry at call time; if it is absent the call
fails with the unknown-dependency error (the KeyError at the dependant
lookup) and produces no events at all, so in particular no deployer is
constructed and no cascading deployment of the token unit happens. -/
theorem deploySingle_requires_dependency (env : Env) (force : Bool)
    (st : DeployState) (habs : st.agents.lookup "token_agent" = none) :
    deploySingle env force "MinerEscrow" st =
      some (.error (.unknownDependency "token_agent"), st, []) := by
  simp [deploySingle, deployers, List.lookup, deployContract, habs]

/-- Witness for C4: from the empty registry (the state the CLI actually uses
for a single-contract deploy), the MinerEscrow deploy fails with the
unknown-dependency error and does nothing. -/
theorem deploySingle_requires_dependency_witness :
    deploySingle envAllOk false "MinerEscrow" emptyDeployState =
      some (.error (.unknownDependency "token_agent"), emptyDeployState, []) :=
  deploySingle_requires_dependency envAllOk false emptyDeployState rfl

/-- C8: the force flag suppresses only interactive confirmation prompts.
For every unit and state, running the per-unit deploy with force and without
it produces the same result, the same final state, and the same non-prompt
event trace (so the secret-validity check and the dependency-handle lookup
run identically and the producible validation failures do not depend on
force); moreover with force no prompt event is emitted at all. -/
theorem force_only_suppresses_prompts (env : Env) (contractName : String)
    (info : DeployerInfo) (st : DeployState) :
    (deployContract env true contractName info st).1 =
      (deployContract env false contractName info st).1 ∧
    (deployContract env true contractName info st).2.1 =
      (deployContract env false contractName info st).2.1 ∧
    ((deployContract env true contractName info st).2.2).filter (fun e => !e.isPrompt) =
      ((deployContract env false contractName info st).2.2).filter (fun e => !e.isPrompt) ∧
    (∀ m, Event.promptConfirm m ∉ (deployContract env true contractName info st).2.2) := by
  obtain ⟨upg, agentName, dependant⟩ := info
  cases dependant with
  | none =>
    refine ⟨?_, ?_, ?_, ?_⟩ <;>
      simp only [deployContract, deployContractCore] <;>
        split_ifs <;> simp [Event.isPrompt]
  | some dep =>
    cases hl : st.agents.lookup dep with
    | none =>
      refine ⟨?_, ?_, ?_, ?_⟩ <;> simp [deployContract, hl]
    | some a =>
      refine ⟨?_, ?_, ?_, ?_⟩ <;>
        simp only [deployContract, hl, deployContractCore] <;>
          split_ifs <;> simp [Event.isPrompt]

/-- Fuel-indexed decimal digit expansion of a natural number, most significant
digit first.  With enough fuel this is the digit sequence Python's string
formatting prints for a nonnegative integer. -/
def pyDigitsGo (fuel n : Nat) : List Nat :=
  match fuel with
  | 0 => []
  | fuel + 1 => if n < 10 then [n] else pyDigitsGo fuel (n / 10) ++ [n % 10]

/-- The decimal digit sequence of a natural number. -/
def pyDigits (n : Nat) : List Nat := pyDigitsGo (n + 1) n

theorem pyDigitsGo_fuel : ∀ fuel fuel2 n, n < fuel → n < fuel2 →
    pyDigitsGo fuel n = pyDigitsGo fuel2 n := by
  intro fuel
  induction fuel with
  | zero => intro fuel2 n h; omega
  | succ f ih =>
    intro fuel2 n h h2
    cases fuel2 with
    | zero => omega
    | succ f2 =>
      simp only [pyDigitsGo]
      by_cases h10 : n < 10
      · simp [h10]
      · have hn : 0 < n := by omega
        have hdiv : n / 10 < n := Nat.div_lt_self hn (by omega)
        simp only [h10, if_false]
        rw [ih f2 (n / 10) (by omega) (by omega)]

theorem pyDigitsGo_ne_nil : ∀ fuel n, n < fuel → pyDigitsGo fuel n ≠ [] := by
  intro fuel
  induction fuel with
  | zero => intro n h; omega
  | succ f ih =>
    intro n h
    simp only [pyDigitsGo]
    by_cases h10 : n < 10
    · simp [h10]
    · simp [h10]

theorem pyDigitsGo_lt_ten : ∀ fuel n, n < fuel → ∀ d ∈ pyDigitsGo fuel n, d < 10 := by
  intro fuel
  induction fuel with
  | zero => intro n h; omega
  | succ f ih =>
    intro n h d hd
    simp only [pyDigitsGo] at hd
    by_cases h10 : n < 10
    · simp [h10] at hd
      omega
    · simp only [h10, if_false, List.mem_append, List.mem_singleton] at hd
      rcases hd with hd | hd
      · have hn : 0 < n := by omega
        have hdiv : n / 10 < n := Nat.div_lt_self hn (by omega)
        exact ih (n / 10) (by omega) d hd
      · subst hd
        exact Nat.mod_lt n (by omega)

theorem pyDigitsGo_inj : ∀ fuel m n, m < fuel → n < fuel →
    pyDigitsGo fuel m = pyDigitsGo fuel n → m = n := by
  intro fuel
  induction fuel with
  | zero => intro m n h; omega
  | succ f ih =>
    intro m n hm hn h
    simp only [pyDigitsGo] at h
    by_cases hm10 : m < 10 <;> by_cases hn10 : n < 10
    · simp [hm10, hn10] at h
      exact h
    · simp only [hm10, hn10, if_true, if_false] at h
      have hnd : n / 10 < f := by
        have : n / 10 < n := Nat.div_lt_self (by omega) (by omega)
        omega
      rcases hgo : pyDigitsGo f (n / 10) with _ | ⟨x, xs⟩
      · exact absurd hgo (pyDigitsGo_ne_nil f (n / 10) hnd)
      · rw [hgo] at h
        have hlen := congrArg List.length h
        simp at hlen
    · simp only [hm10, hn10, if_true, if_false] at h
      have hmd : m / 10 < f := by
        have : m / 10 < m := Nat.div_lt_self (by omega) (by omega)
        omega
      rcases hgo : pyDigitsGo f (m / 10) with _ | ⟨x, xs⟩
      · exact absurd hgo (pyDigitsGo_ne_nil f (m / 10) hmd)
      · rw [hgo] at h
        have hlen := congrArg List.length h
        simp at hlen
    · simp only [hm10, hn10, if_false] at h
      have hmd : m / 10 < f := by
        have : m / 10 < m := Nat.div_lt_self (by omega) (by omega)
        omega
      have hnd : n / 10 < f := by
        have : n / 10 < n := Nat.div_lt_self (by omega) (by omega)
        omega
      have hparts := List.append_inj' h rfl
      have hdiv := ih (m / 10) (n / 10) hmd hnd hparts.1
      have hmod : m % 10 = n % 10 := by
        have := hparts.2
        simp at this
        exact this
      omega

theorem pyDigits_inj (m n : Nat) (h : pyDigits m = pyDigits n) : m = n := by
  have hm : pyDigitsGo (m + 1) m = pyDigitsGo (m + n + 1) m :=
    pyDigitsGo_fuel (m + 1) (m + n + 1) m (by omega) (by omega)
  have hn : pyDigitsGo (n + 1) n = pyDigitsGo (m + n + 1) n :=
    pyDigitsGo_fuel (n + 1) (m + n + 1) n (by omega) (by omega)
  unfold pyDigits at h
  rw [hm, hn] at h
  exact pyDigitsGo_inj (m + n + 1) m n (by omega) (by omega) h

theorem digitChar_inj_lt : ∀ m, m < 10 → ∀ n, n < 10 →
    Nat.digitChar m = Nat.digitChar n → m = n := by decide

theorem map_digitChar_inj : ∀ l1 l2 : List Nat, (∀ d ∈ l1, d < 10) →
    (∀ d ∈ l2, d < 10) → l1.map Nat.digitChar = l2.map Nat.digitChar → l1 = l2 := by
  intro l1
  induction l1 with
  | nil =>
    intro l2 _ _ h
    cases l2 with
    | nil => rfl
    | cons b bs => simp at h
  | cons a as ih =>
    intro l2 h1 h2 h
    cases l2 with
    | nil => simp at h
    | cons b bs =>
      simp only [List.map_cons, List.cons.injEq] at h
      have ha : a = b :=
        digitChar_inj_lt a (h1 a (by simp)) b (h2 b (by simp)) h.1
      have hrest : as = bs :=
        ih bs (fun d hd => h1 d (by simp [hd])) (fun d hd => h2 d (by simp [hd])) h.2
      rw [ha, hrest]

/-- The string Python prints for a natural number. -/
def natString (n : Nat) : String := String.mk ((pyDigits n).map Nat.digitChar)

/-- The per-node database name of cli/main.py line 671: sim- followed by the
node's REST port. -/
def dbNameFor (port : Nat) : String := "sim-" ++ natString port

theorem natString_inj : Function.Injective natString := by
  intro m n h
  unfold natString at h
  have hdata : (pyDigits m).map Nat.digitChar = (pyDigits n).map Nat.digitChar :=
    congrArg String.data h
  exact pyDigits_inj m n
    (map_digitChar_inj _ _ (pyDigitsGo_lt_ten _ m (by omega))
      (pyDigitsGo_lt_ten _ n (by omega)) hdata)

theorem dbNameFor_inj : Function.Injective dbNameFor := by
  intro m n h
  unfold dbNameFor at h
  have hdata := congrArg String.data h
  simp only [String.data_append] at hdata
  exact natString_inj (String.ext (List.append_cancel_left hdata))

/-- A deterministic random source: an infinite stream of raw draws and a
current position.  Seeding corresponds to fixing the stream and resetting the
position. -/
structure Rng where
  stream : Nat → Nat
  pos : Nat

/-- Advance the source by one raw draw. -/
def Rng.next (r : Rng) : Nat × Rng := (r.stream r.pos, ⟨r.stream, r.pos + 1⟩)

/-- The failure Python's random.randint raises when the range is empty. -/
inductive RangeError where
  | invalidRange
deriving DecidableEq

/-- Python's random.randint(a, b), modelled from the standard-library
contract of the external random collaborator: a uniform draw inclusive of
both bounds, failing when a exceeds b. -/
def randint (a b : Nat) (r : Rng) : Except RangeError (Nat × Rng) :=
  if b < a then .error .invalidRange
  else
    match r.next with
    | (v, r') => .ok (a + v % (b - a + 1), r')

/-- The per-node stake assignment of cli/main.py lines 684-688: one randint
draw for the stake value within its bounds, then one randint draw for the
lock periods within theirs, threading the random source. -/
def assignStake (minValue maxValue minPeriods maxPeriods : Nat) (r : Rng) :
    Except RangeError ((Nat × Nat) × Rng) :=
  match randint minValue maxValue r with
  | .error e => .error e
  | .ok (v, r1) =>
    match randint minPeriods maxPeriods r1 with
    | .error e => .error e
    | .ok (p, r2) => .ok ((v, p), r2)

/-- C6: stake assignment is a deterministic function of the injected random
source, so identically seeded sources give identical (value, periods) draws;
within valid bounds both draws succeed and are inclusive of their min and max
bound; and a min exceeding its max on either axis fails with the
invalid-range error. -/
theorem assignStake_contract (minValue maxValue minPeriods maxPeriods : Nat) :
    (∀ r1 r2 : Rng, r1 = r2 →
       assignStake minValue maxValue minPeriods maxPeriods r1 =
         assignStake minValue maxValue minPeriods maxPeriods r2) ∧
    (∀ r : Rng, minValue ≤ maxValue → minPeriods ≤ maxPeriods →
       ∃ v p r', assignStake minValue maxValue minPeriods maxPeriods r =
           .ok ((v, p), r') ∧
         minValue ≤ v ∧ v ≤ maxValue ∧ minPeriods ≤ p ∧ p ≤ maxPeriods) ∧
    (∀ r : Rng, maxValue < minValue ∨ maxPeriods < minPeriods →
       assignStake minValue maxValue minPeriods maxPeriods r =
         .error .invalidRange) := by
  refine ⟨fun r1 r2 h => by rw [h], ?_, ?_⟩
  · intro r hv hp
    have hv' : ¬ maxValue < minValue := by omega
    have hp' : ¬ maxPeriods < minPeriods := by omega
    refine ⟨minValue + r.stream r.pos % (maxValue - minValue + 1),
            minPeriods + r.stream (r.pos + 1) % (maxPeriods - minPeriods + 1),
            ⟨r.stream, r.pos + 2⟩, ?_, ?_, ?_, ?_, ?_⟩
    · simp [assignStake, randint, hv', hp', Rng.next]
    · omega
    · have : r.stream r.pos % (maxValue - minValue + 1) < maxValue - minValue + 1 :=
        Nat.mod_lt _ (by omega)
      omega
    · omega
    · have : r.stream (r.pos + 1) % (maxPeriods - minPeriods + 1) <
          maxPeriods - minPeriods + 1 := Nat.mod_lt _ (by omega)
      omega
  · intro r h
    rcases h with h | h
    · simp [assignStake, randint, h]
    · by_cases hv : maxValue < minValue
      · simp [assignStake, randint, hv]
      · simp [assignStake, randint, hv, h, Rng.next]

/-- Witness for C6: at the spec's example bounds with a seeded source the
assignment is deterministic, succeeds within bounds, and an inverted range
fails. -/
theorem assignStake_contract_witness :
    (∃ v p r', assignStake 100 1000 1 30 ⟨fun i => i * i, 0⟩ =
        .ok ((v, p), r') ∧ 100 ≤ v ∧ v ≤ 1000 ∧ 1 ≤ p ∧ p ≤ 30) ∧
    assignStake 1000 100 1 30 ⟨fun i => i * i, 0⟩ = .error .invalidRange :=
  ⟨(assignStake_contract 100 1000 1 30).2.1 ⟨fun i => i * i, 0⟩ (by omega) (by omega),
   (assignStake_contract 1000 100 1 30).2.2 ⟨fun i => i * i, 0⟩ (Or.inl (by omega))⟩

/-- With nonempty ranges the stake assignment succeeds, with the explicit
draw values and the source advanced by two positions. -/
theorem assignStake_isOk (minV maxV minP maxP : Nat) (r : Rng)
    (hv : minV ≤ maxV) (hp : minP ≤ maxP) :
    assignStake minV maxV minP maxP r =
      .ok ((minV + r.stream r.pos % (maxV - minV + 1),
            minP + r.stream (r.pos + 1) % (maxP - minP + 1)),
           ⟨r.stream, r.pos + 2⟩) := by
  have hv' : ¬ maxV < minV := by omega
  have hp' : ¬ maxP < minP := by omega
  simp [assignStake, randint, hv', hp', Rng.next]

/-- One simulated worker node, as assembled in the swarm loop of
cli/main.py lines 665-690: its account address, its REST port, its database
name, and the randomly drawn stake value and lock periods. -/
structure NodeSpec where
  address : Nat
  restPort : Nat
  dbName : String
  stakeValue : Nat
  stakePeriods : Nat
deriving DecidableEq

/-- The external process spawner (reactor.spawnProcess): whether the spawn at
a given loop position succeeds, and the pid of the resulting process. -/
structure SpawnEnv where
  spawnOk : Nat → Bool
  pidFor : Nat → Nat

/-- How a simulate-start run can abort before reaching the blocking wait:
an uncaught spawn failure at some loop position, or an uncaught range error
from the stake draw. -/
inductive SwarmAbort where
  | spawnFailed (position : Nat)
  | rangeFailed
deriving DecidableEq

/-- Externally observable side effects of a simulate-start run: setting the
deployer address to the first test account (cli/main.py line 608), spawning a
worker process, removing the simulation registry file, killing a process. -/
inductive SimEffect where
  | deployerAddressSet (address : Nat)
  | spawned (pid : Nat) (spec : NodeSpec)
  | removedRegistryFile
  | killed (pid : Nat)
deriving DecidableEq

/-- The swarm loop of cli/main.py lines 665-719 (non-federated): for each
address of everyone_else, in order, with ports enumerated from 8787, build
the node parameters (database name sim-port, random stake), then spawn the
process and append it to the tracked list.  There is no exception handling in
the loop body: a failed stake draw or spawn aborts the remaining iterations,
leaving the processes spawned so far tracked.  Returns the outcome, the
tracked process list, the effects in order, and the advanced random source. -/
def spawnSwarmLoop (env : SpawnEnv) (minV maxV minP maxP : Nat) :
    List Nat → Nat → Rng → List (Nat × NodeSpec) →
    Except SwarmAbort Unit × List (Nat × NodeSpec) × List SimEffect × Rng
  | [], _, r, tracked => (.ok (), tracked, [], r)
  | addr :: rest, idx, r, tracked =>
    match assignStake minV maxV minP maxP r with
    | .error _ => (.error .rangeFailed, tracked, [], r)
    | .ok ((v, p), r') =>
      if env.spawnOk idx then
        let pid := env.pidFor idx
        let spec : NodeSpec := ⟨addr, 8787 + idx, dbNameFor (8787 + idx), v, p⟩
        let out := spawnSwarmLoop env minV maxV minP maxP rest (idx + 1) r'
          (tracked ++ [(pid, spec)])
        (out.1, out.2.1, SimEffect.spawned pid spec :: out.2.2.1, out.2.2.2)
      else
        (.error (.spawnFailed idx), tracked, [], r')

/-- When every spawn succeeds and the stake bounds are nonempty, the swarm
loop appends one tracked process per address, with consecutive ports from
8787 plus the starting offset, database names derived from the ports, and one
spawn effect per process. -/
theorem spawnSwarmLoop_ok (env : SpawnEnv) (minV maxV minP maxP : Nat)
    (hv : minV ≤ maxV) (hp : minP ≤ maxP) (hok : ∀ i, env.spawnOk i = true) :
    ∀ (addrs : List Nat) (idx : Nat) (r : Rng) (tracked : List (Nat × NodeSpec)),
      ∃ newTracked rOut,
        spawnSwarmLoop env minV maxV minP maxP addrs idx r tracked =
          (.ok (), tracked ++ newTracked,
           newTracked.map (fun pr => SimEffect.spawned pr.1 pr.2), rOut) ∧
        newTracked.map (fun pr => pr.2.address) = addrs ∧
        newTracked.map (fun pr => pr.2.restPort) = List.range' (8787 + idx) addrs.length ∧
        (∀ pr ∈ newTracked, pr.2.dbName = dbNameFor pr.2.restPort) := by
  intro addrs
  induction addrs with
  | nil =>
    intro idx r tracked
    exact ⟨[], r, by simp [spawnSwarmLoop], by simp, by simp [List.range'], by simp⟩
  | cons a rest ih =>
    intro idx r tracked
    obtain ⟨nt, rOut, heq, haddr, hport, hdb⟩ :=
      ih (idx + 1) ⟨r.stream, r.pos + 2⟩
        (tracked ++ [(env.pidFor idx,
          ⟨a, 8787 + idx, dbNameFor (8787 + idx),
           minV + r.stream r.pos % (maxV - minV + 1),
           minP + r.stream (r.pos + 1) % (maxP - minP + 1)⟩)])
    refine ⟨(env.pidFor idx,
        ⟨a, 8787 + idx, dbNameFor (8787 + idx),
         minV + r.stream r.pos % (maxV - minV + 1),
         minP + r.stream (r.pos + 1) % (maxP - minP + 1)⟩) :: nt, rOut, ?_, ?_, ?_, ?_⟩
    · simp only [spawnSwarmLoop, assignStake_isOk minV maxV minP maxP r hv hp,
        hok idx, if_true, heq]
      simp [List.append_assoc]
    · simp [haddr]
    · have : 8787 + idx + 1 = 8787 + (idx + 1) := by omega
      simp only [List.map_cons, hport, List.length_cons, List.range'_succ, this]
    · intro pr hpr
      rcases List.mem_cons.mp hpr with h | h
      · subst h
        rfl
      · exact hdb pr h

/-- What the swarm loop itself delivers, taken in isolation, for an account
list origin followed by rest: one worker per remaining account — the account
count minus one — with no worker for the origin, REST ports the consecutive
sequence from 8787, database names sim- followed by the port, pairwise
distinct.  (In the program this loop is dead code: the run crashes at
line 649 first; see the simulate-start theorems below.) -/
theorem swarm_ports_and_names (env : SpawnEnv) (minV maxV minP maxP : Nat)
    (origin : Nat) (rest : List Nat) (r : Rng)
    (hnodup : (origin :: rest).Nodup)
    (hv : minV ≤ maxV) (hp : minP ≤ maxP)
    (hok : ∀ i, env.spawnOk i = true) :
    ∃ tracked rOut,
      spawnSwarmLoop env minV maxV minP maxP rest 0 r [] =
        (.ok (), tracked,
         tracked.map (fun pr => SimEffect.spawned pr.1 pr.2), rOut) ∧
      tracked.length = (origin :: rest).length - 1 ∧
      tracked.map (fun pr => pr.2.address) = rest ∧
      origin ∉ tracked.map (fun pr => pr.2.address) ∧
      tracked.map (fun pr => pr.2.restPort) = List.range' 8787 rest.length ∧
      (∀ pr ∈ tracked, pr.2.dbName = dbNameFor pr.2.restPort) ∧
      (tracked.map (fun pr => pr.2.dbName)).Nodup := by
  obtain ⟨nt, rOut, heq, haddr, hport, hdb⟩ :=
    spawnSwarmLoop_ok env minV maxV minP maxP hv hp hok rest 0 r []
  refine ⟨nt, rOut, by simpa using heq, ?_, haddr, ?_, by simpa using hport, hdb, ?_⟩
  · have := congrArg List.length haddr
    simp at this
    simp [this]
  · rw [haddr]
    exact (List.nodup_cons.mp hnodup).1
  · have hmap : nt.map (fun pr => pr.2.dbName) =
        nt.map (fun pr => dbNameFor pr.2.restPort) :=
      List.map_congr_left hdb
    rw [hmap, show (fun pr : Nat × NodeSpec => dbNameFor pr.2.restPort) =
        (dbNameFor ∘ fun pr : Nat × NodeSpec => pr.2.restPort) from rfl,
      ← List.map_map, hport]
    exact (List.nodup_range' 8787 rest.length).map dbNameFor_inj

/-- A spawner that always succeeds, with distinct pids per position. -/
def spawnerAllOk : SpawnEnv := ⟨fun _ => true, fun i => 100 + i⟩

/-- Concrete evaluation of the swarm-loop lemma: three accounts, all spawns
succeeding, at the spec's example stake bounds. -/
theorem swarm_ports_and_names_witness :
    ∃ tracked rOut,
      spawnSwarmLoop spawnerAllOk 100 1000 1 30 [2, 3] 0 ⟨fun _ => 0, 0⟩ [] =
        (.ok (), tracked,
         tracked.map (fun pr => SimEffect.spawned pr.1 pr.2), rOut) ∧
      tracked.length = ([1, 2, 3] : List Nat).length - 1 ∧
      tracked.map (fun pr => pr.2.address) = [2, 3] ∧
      (1 : Nat) ∉ tracked.map (fun pr => pr.2.address) ∧
      tracked.map (fun pr => pr.2.restPort) = List.range' 8787 2 ∧
      (∀ pr ∈ tracked, pr.2.dbName = dbNameFor pr.2.restPort) ∧
      (tracked.map (fun pr => pr.2.dbName)).Nodup :=
  swarm_ports_and_names spawnerAllOk 100 1000 1 30 1 [2, 3] ⟨fun _ => 0, 0⟩
    (by decide) (by omega) (by omega) (fun _ => rfl)

/-- If the spawns before position j succeed and the spawn at position j
fails, the swarm loop aborts at j: exactly the first j nodes were spawned and
remain tracked, and the remaining addresses are never processed. -/
theorem spawnSwarmLoop_abort (env : SpawnEnv) (minV maxV minP maxP : Nat)
    (hv : minV ≤ maxV) (hp : minP ≤ maxP) :
    ∀ (j : Nat) (addrs : List Nat) (idx : Nat) (r : Rng)
      (tracked : List (Nat × NodeSpec)),
      (∀ i, i < j → env.spawnOk (idx + i) = true) →
      env.spawnOk (idx + j) = false →
      j < addrs.length →
      ∃ newTracked rOut,
        spawnSwarmLoop env minV maxV minP maxP addrs idx r tracked =
          (.error (.spawnFailed (idx + j)), tracked ++ newTracked,
           newTracked.map (fun pr => SimEffect.spawned pr.1 pr.2), rOut) ∧
        newTracked.length = j ∧
        newTracked.map (fun pr => pr.2.address) = addrs.take j := by
  intro j
  induction j with
  | zero =>
    intro addrs idx r tracked hok hfail hlen
    cases addrs with
    | nil => simp at hlen
    | cons a rest =>
      have hfail' : env.spawnOk idx = false := by simpa using hfail
      refine ⟨[], ⟨r.stream, r.pos + 2⟩, ?_, rfl, by simp⟩
      simp [spawnSwarmLoop, assignStake_isOk minV maxV minP maxP r hv hp, hfail']
  | succ j ih =>
    intro addrs idx r tracked hok hfail hlen
    cases addrs with
    | nil => simp at hlen
    | cons a rest =>
      have hok0 : env.spawnOk idx = true := by simpa using hok 0 (by omega)
      have hok' : ∀ i, i < j → env.spawnOk (idx + 1 + i) = true := by
        intro i hi
        have := hok (i + 1) (by omega)
        rw [show idx + 1 + i = idx + (i + 1) by omega]
        exact this
      have hfail' : env.spawnOk (idx + 1 + j) = false := by
        rw [show idx + 1 + j = idx + (j + 1) by omega]
        exact hfail
      obtain ⟨nt, rOut, heq, hlen', haddr⟩ :=
        ih rest (idx + 1) ⟨r.stream, r.pos + 2⟩
          (tracked ++ [(env.pidFor idx,
            ⟨a, 8787 + idx, dbNameFor (8787 + idx),
             minV + r.stream r.pos % (maxV - minV + 1),
             minP + r.stream (r.pos + 1) % (maxP - minP + 1)⟩)])
          hok' hfail' (by simpa using hlen)
      refine ⟨(env.pidFor idx,
          ⟨a, 8787 + idx, dbNameFor (8787 + idx),
           minV + r.stream r.pos % (maxV - minV + 1),
           minP + r.stream (r.pos + 1) % (maxP - minP + 1)⟩) :: nt, rOut, ?_, ?_, ?_⟩
      · simp only [spawnSwarmLoop, assignStake_isOk minV maxV minP maxP r hv hp,
          hok0, if_true, heq]
        rw [show idx + 1 + j = idx + (j + 1) by omega]
        simp [List.append_assoc]
      · simp [hlen']
      · simp [haddr]

/-- C7 counterexample: the claim that one spawn failure is isolated and does
not prevent the remaining nodes from being spawned is false of the code.
With two node specs and the spawn of the first one failing, the loop aborts
at position 0: no process is tracked, no spawn effect exists at all (so the
second node was never spawned), and the single propagated error is all that
is returned, with no aggregated per-node failure list alongside successes. -/
theorem spawn_failure_not_isolated :
    (spawnSwarmLoop ⟨fun i => !(i == 0), fun i => 100 + i⟩ 100 1000 1 30
        [5, 6] 0 ⟨fun _ => 0, 0⟩ []).1 = .error (.spawnFailed 0) ∧
    (spawnSwarmLoop ⟨fun i => !(i == 0), fun i => 100 + i⟩ 100 1000 1 30
        [5, 6] 0 ⟨fun _ => 0, 0⟩ []).2.1 = [] ∧
    (∀ pid spec, SimEffect.spawned pid spec ∉
       (spawnSwarmLoop ⟨fun i => !(i == 0), fun i => 100 + i⟩ 100 1000 1 30
         [5, 6] 0 ⟨fun _ => 0, 0⟩ []).2.2.1) := by
  have heffs : (spawnSwarmLoop ⟨fun i => !(i == 0), fun i => 100 + i⟩ 100 1000 1 30
      [5, 6] 0 ⟨fun _ => 0, 0⟩ []).2.2.1 = [] := rfl
  exact ⟨rfl, rfl, fun pid spec => by simp [heffs]⟩

/-- C7 amended: a spawn failure is not isolated.  The first failing spawn
aborts the loop: exactly the nodes before the failing position were spawned
and stay tracked, the failing node and all later nodes are never spawned, and
the only reported failure is the propagated error naming the failing
position. -/
theorem spawn_failure_aborts_rest (env : SpawnEnv) (minV maxV minP maxP : Nat)
    (addrs : List Nat) (j : Nat) (r : Rng)
    (hv : minV ≤ maxV) (hp : minP ≤ maxP)
    (hbefore : ∀ i, i < j → env.spawnOk i = true)
    (hfail : env.spawnOk j = false) (hj : j < addrs.length) :
    ∃ newTracked rOut,
      spawnSwarmLoop env minV maxV minP maxP addrs 0 r [] =
        (.error (.spawnFailed j), newTracked,
         newTracked.map (fun pr => SimEffect.spawned pr.1 pr.2), rOut) ∧
      newTracked.length = j ∧
      newTracked.map (fun pr => pr.2.address) = addrs.take j := by
  obtain ⟨nt, rOut, heq, hlen, haddr⟩ :=
    spawnSwarmLoop_abort env minV maxV minP maxP hv hp j addrs 0 r []
      (by simpa using hbefore) (by simpa using hfail) hj
  exact ⟨nt, rOut, by simpa using heq, hlen, haddr⟩

/-- Witness for the amended C7: three specs with the spawn at position 1
failing leave exactly the first node tracked. -/
theorem spawn_failure_aborts_rest_witness :
    ∃ newTracked rOut,
      spawnSwarmLoop ⟨fun i => !(i == 1), fun i => 100 + i⟩ 100 1000 1 30
          [5, 6, 7] 0 ⟨fun _ => 0, 0⟩ [] =
        (.error (.spawnFailed 1), newTracked,
         newTracked.map (fun pr => SimEffect.spawned pr.1 pr.2), rOut) ∧
      newTracked.length = 1 ∧
      newTracked.map (fun pr => pr.2.address) = [5, 6, 7].take 1 :=
  spawn_failure_aborts_rest ⟨fun i => !(i == 1), fun i => 100 + i⟩ 100 1000 1 30
    [5, 6, 7] 1 ⟨fun _ => 0, 0⟩ (by omega) (by omega)
    (by decide) (by decide) (by decide)

/-- How the blocking wait (reactor.run, cli/main.py line 724) exits: a normal
stop, an error, or an external cancellation signal. -/
inductive ReactorExit where
  | normal
  | errored
  | cancelled
deriving DecidableEq

/-- The module-level names bound in cli/main.py when the simulate action
runs: the import block of lines 2-40 and the module-level assignments and
definitions.  DEFAULT_SIMULATION_REGISTRY_FILEPATH, referenced at lines 649
and 728, is not among them — it is never imported or assigned, so evaluating
it raises NameError. -/
def simulateGlobalNames : List String :=
  ["json", "logging", "os", "random", "sys", "click", "collections", "shutil",
   "subprocess", "constants", "ec", "is_checksum_address", "reactor", "Tuple",
   "ClassVar", "geth_poa_middleware", "Miner", "MinerAgent", "PolicyAgent",
   "NucypherTokenAgent", "EthereumContractAgent", "Blockchain",
   "DISPATCHER_SECRET_LENGTH", "MIN_ALLOWED_LOCKED", "MIN_LOCKED_PERIODS",
   "MAX_MINTING_PERIODS", "NucypherTokenDeployer", "MinerEscrowDeployer",
   "PolicyManagerDeployer", "BlockchainDeployerInterface",
   "TemporaryEthereumContractRegistry", "SolidityCompiler",
   "UrsulaConfiguration", "BASE_DIR", "NodeConfiguration",
   "validate_configuration_file", "generate_local_wallet", "generate_account",
   "generate_self_signed_certificate", "_save_tls_certificate",
   "TesterBlockchain", "token_airdrop", "DEVELOPMENT_TOKEN_AIRDROP_AMOUNT",
   "DEVELOPMENT_ETH_AIRDROP_AMOUNT", "UrsulaProcessProtocol", "__version__",
   "BANNER", "root", "ch", "formatter", "NucypherClickConfig", "uses_config",
   "cli", "configure", "accounts", "stake", "simulate", "deploy", "status",
   "ursula"]

/-- Whether a module-level name is bound when the simulate action runs. -/
def nameBound (n : String) : Bool := simulateGlobalNames.contains n

/-- Ways a non-federated simulate-start run terminates before a clean finish:
the NameError from evaluating an unbound module-level name, the ValueError
from unpacking an empty account list (cli/main.py line 605), a declined
confirmation (click.Abort), a failure of one of the external bootstrap calls
(the airdrops and contract deploys of lines 613-645), or an abort escaping
the swarm loop. -/
inductive SimAbort where
  | nameUnbound (name : String)
  | accountUnpackFailed
  | userDeclined
  | bootstrapFailed
  | swarmFailed (e : SwarmAbort)
deriving DecidableEq

/-- The outcome of a non-federated simulate-start run: crashed by an uncaught
exception or abort, or terminated after its blocking wait with the finally
clause completed. -/
inductive SimulateOutcome where
  | crashed (a : SimAbort)
  | exitedAfterWait (exit : ReactorExit)
deriving DecidableEq

/-- The registry commit of cli/main.py line 649: the filepath argument is the
module-level name DEFAULT_SIMULATION_REGISTRY_FILEPATH, which Python looks up
before the call can run; an unbound name raises NameError there. -/
def registryCommitStep : Option SimAbort :=
  if nameBound "DEFAULT_SIMULATION_REGISTRY_FILEPATH" then none
  else some (.nameUnbound "DEFAULT_SIMULATION_REGISTRY_FILEPATH")

/-- The finally clause of cli/main.py lines 725-732 in the non-federated
case: it first evaluates the argument of os.remove at line 728, the same
module-level name; with that name unbound the NameError propagates out of the
finally, so neither the removal nor the kill loop of lines 730-732 runs.
Only if the name were bound would it remove the registry file and then kill
every tracked process. -/
def simulateFinally (tracked : List (Nat × NodeSpec)) :
    Option SimAbort × List SimEffect :=
  if nameBound "DEFAULT_SIMULATION_REGISTRY_FILEPATH" then
    (none, [SimEffect.removedRegistryFile] ++
      tracked.map (fun pr => SimEffect.killed pr.1))
  else
    (some (.nameUnbound "DEFAULT_SIMULATION_REGISTRY_FILEPATH"), [])

/-- The non-federated simulate start action after the pre-start cleanup,
cli/main.py lines 596-733, in source order: the test accounts created by the
external TesterBlockchain (line 602, one per requested node) arrive as the
account list; unpack origin and everyone_else (line 605, ValueError on an
empty list); set the deployer address to the first account (line 608); run
the external ether airdrop (line 613); confirm the bootstrap (line 615,
abort on decline); run the external contract deploys and token airdrop
(lines 619-645); commit the registry (line 649, where the unbound filepath
name raises NameError); then the swarm loop (lines 665-719, no exception
handling), the start-the-reactor confirmation (line 722), and the try whose
body is reactor.run() (lines 723-724) with the finally of lines 725-732.
The federated variant is not modelled: it crashes at line 665 iterating
NotImplemented.  Returns the outcome and the observable effects in order. -/
def simulateStartFull (senv : SpawnEnv) (etherOk confirmDeploy deploysOk confirmStart : Bool)
    (rexit : ReactorExit) (accountList : List Nat)
    (minV maxV minP maxP : Nat) (r : Rng) : SimulateOutcome × List SimEffect :=
  match accountList with
  | [] => (.crashed .accountUnpackFailed, [])
  | origin :: everyone =>
    let setup := [SimEffect.deployerAddressSet origin]
    if !etherOk then (.crashed .bootstrapFailed, setup)
    else if !confirmDeploy then (.crashed .userDeclined, setup)
    else if !deploysOk then (.crashed .bootstrapFailed, setup)
    else
      match registryCommitStep with
      | some a => (.crashed a, setup)
      | none =>
        match spawnSwarmLoop senv minV maxV minP maxP everyone 0 r [] with
        | (.error e, _, effs, _) => (.crashed (.swarmFailed e), setup ++ effs)
        | (.ok _, tracked, effs, _) =>
          if !confirmStart then (.crashed .userDeclined, setup ++ effs)
          else
            match simulateFinally tracked with
            | (some a, fx) => (.crashed a, setup ++ effs ++ fx)
            | (none, fx) => (.exitedAfterWait rexit, setup ++ effs ++ fx)

/-- The source fact driving the simulate-start claims: the registry filepath
name is unbound in the module. -/
theorem nameBound_registry_filepath :
    nameBound "DEFAULT_SIMULATION_REGISTRY_FILEPATH" = false := by decide

/-- Every non-federated simulate-start run on a nonempty account list crashes
at or before the registry commit of line 649, with the deployer-address
assignment its only observable effect: the NameError from the unbound
filepath name precedes the swarm loop, the wait and the finally clause. -/
theorem simulateStartFull_eq (senv : SpawnEnv)
    (etherOk confirmDeploy deploysOk confirmStart : Bool) (rexit : ReactorExit)
    (origin : Nat) (everyone : List Nat) (minV maxV minP maxP : Nat) (r : Rng) :
    simulateStartFull senv etherOk confirmDeploy deploysOk confirmStart rexit
        (origin :: everyone) minV maxV minP maxP r =
      (.crashed (if !etherOk then .bootstrapFailed
                 else if !confirmDeploy then .userDeclined
                 else if !deploysOk then .bootstrapFailed
                 else .nameUnbound "DEFAULT_SIMULATION_REGISTRY_FILEPATH"),
       [SimEffect.deployerAddressSet origin]) := by
  have hreg : registryCommitStep =
      some (.nameUnbound "DEFAULT_SIMULATION_REGISTRY_FILEPATH") := by
    simp [registryCommitStep, nameBound_registry_filepath]
  cases etherOk <;> cases confirmDeploy <;> cases deploysOk <;>
    simp [simulateStartFull, hreg]

/-- C5: a code bug defeats the claimed teardown guarantee.  The registry
filepath name is unbound; consequently every non-federated simulate-start run
crashes before the blocking wait and performs no teardown at all — no
registry removal and no kill, on any exit path; and even the finally clause
itself, applied to any tracked swarm, raises the NameError at the os.remove
argument before the kill loop, so no exit through the wait could kill the
workers either. -/
theorem simulate_teardown_never_runs :
    nameBound "DEFAULT_SIMULATION_REGISTRY_FILEPATH" = false ∧
    (∀ (senv : SpawnEnv) (etherOk confirmDeploy deploysOk confirmStart : Bool)
       (rexit : ReactorExit) (accountList : List Nat)
       (minV maxV minP maxP : Nat) (r : Rng),
       (∃ a, (simulateStartFull senv etherOk confirmDeploy deploysOk confirmStart
          rexit accountList minV maxV minP maxP r).1 = .crashed a) ∧
       SimEffect.removedRegistryFile ∉
         (simulateStartFull senv etherOk confirmDeploy deploysOk confirmStart
           rexit accountList minV maxV minP maxP r).2 ∧
       (∀ pid, SimEffect.killed pid ∉
         (simulateStartFull senv etherOk confirmDeploy deploysOk confirmStart
           rexit accountList minV maxV minP maxP r).2)) ∧
    (∀ tracked, simulateFinally tracked =
       (some (.nameUnbound "DEFAULT_SIMULATION_REGISTRY_FILEPATH"), [])) := by
  refine ⟨nameBound_registry_filepath, ?_, ?_⟩
  · intro senv etherOk confirmDeploy deploysOk confirmStart rexit accountList
      minV maxV minP maxP r
    cases accountList with
    | nil => exact ⟨⟨.accountUnpackFailed, rfl⟩, by simp [simulateStartFull],
        fun pid => by simp [simulateStartFull]⟩
    | cons origin everyone =>
      rw [simulateStartFull_eq]
      exact ⟨⟨_, rfl⟩, by simp, fun pid => by simp⟩
  · intro tracked
    simp [simulateFinally, nameBound_registry_filepath]

/-- C9: a code bug makes the claimed swarm unreachable.  No run of the
non-federated simulate start action ever emits a spawn effect — zero worker
processes are spawned, not the claimed node count minus one — and at the
concrete failing input of three requested nodes the run crashes with the
NameError for the unbound registry filepath name right after reserving the
first account as the deployer origin.  (The lemma spawnSwarmLoop_ok, proved
above, shows the dead swarm loop would deliver the claimed ports and
database names were the name bound.) -/
theorem simulate_no_workers_spawned :
    (∀ (senv : SpawnEnv) (etherOk confirmDeploy deploysOk confirmStart : Bool)
       (rexit : ReactorExit) (accountList : List Nat)
       (minV maxV minP maxP : Nat) (r : Rng),
       ∀ pid spec, SimEffect.spawned pid spec ∉
         (simulateStartFull senv etherOk confirmDeploy deploysOk confirmStart
           rexit accountList minV maxV minP maxP r).2) ∧
    simulateStartFull spawnerAllOk true true true true .normal [1, 2, 3]
        100 1000 1 30 ⟨fun _ => 0, 0⟩ =
      (.crashed (.nameUnbound "DEFAULT_SIMULATION_REGISTRY_FILEPATH"),
       [SimEffect.deployerAddressSet 1]) := by
  constructor
  · intro senv etherOk confirmDeploy deploysOk confirmStart rexit accountList
      minV maxV minP maxP r pid spec
    cases accountList with
    | nil => simp [simulateStartFull]
    | cons origin everyone =>
      rw [simulateStartFull_eq]
      simp
  · rw [simulateStartFull_eq]
    simp

/-- Elements of a list at even positions (0-based). -/
def evenEls {α : Type} : List α → List α
  | [] => []
  | [x] => [x]
  | x :: _ :: xs => x :: evenEls xs

/-- Elements of a list at odd positions (0-based). -/
def oddEls {α : Type} : List α → List α
  | [] => []
  | [_] => []
  | _ :: y :: xs => y :: oddEls xs

/-- The pre-start cleanup loop of cli/main.py lines 578-581: Python iterates
config.sim_processes by an internal index while the body removes the current
process from the same list and kills it.  This models the Python list
iterator protocol: at each step, if the index is within the (mutated) list,
take the element there, remove its first occurrence, kill it, and advance the
index.  Returns (processes still tracked, processes killed in order). -/
def simKillSweep (l : List Nat) (i : Nat) : List Nat × List Nat :=
  if h : i < l.length then
    let x := l.get ⟨i, h⟩
    let out := simKillSweep (l.erase x) (i + 1)
    (out.1, x :: out.2)
  else (l, [])
termination_by l.length
decreasing_by
  simp [List.length_erase_of_mem (l.get_mem i h)]
  omega

theorem simKillSweep_split : ∀ (n : Nat) (rest : List Nat), rest.length ≤ n →
    ∀ pre : List Nat, (pre ++ rest).Nodup →
      simKillSweep (pre ++ rest) pre.length = (pre ++ oddEls rest, evenEls rest) := by
  intro n
  induction n with
  | zero =>
    intro rest hle pre hnd
    have : rest = [] := List.length_eq_zero.mp (by omega)
    subst this
    rw [simKillSweep]
    simp [oddEls, evenEls]
  | succ n ih =>
    intro rest hle pre hnd
    match rest with
    | [] =>
      rw [simKillSweep]
      simp [oddEls, evenEls]
    | [x] =>
      have hlt : pre.length < (pre ++ [x]).length := by simp
      have hget : (pre ++ [x]).get ⟨pre.length, hlt⟩ = x := by
        rw [List.get_append_right] <;> simp
      have hxnotin : x ∉ pre := by
        rcases List.nodup_append.mp hnd with ⟨_, _, hdisj⟩
        intro hx
        exact hdisj hx (by simp)
      have herase : (pre ++ [x]).erase x = pre := by
        rw [List.erase_append_right _ hxnotin]
        simp
      rw [simKillSweep, dif_pos hlt]
      simp only [hget, herase]
      rw [simKillSweep, dif_neg (by omega)]
      simp [oddEls, evenEls]
    | x :: y :: rest2 =>
      have hlt : pre.length < (pre ++ x :: y :: rest2).length := by simp
      have hget : (pre ++ x :: y :: rest2).get ⟨pre.length, hlt⟩ = x := by
        rw [List.get_append_right] <;> simp
      have hxnotin : x ∉ pre := by
        rcases List.nodup_append.mp hnd with ⟨_, _, hdisj⟩
        intro hx
        exact hdisj hx (by simp)
      have herase : (pre ++ x :: y :: rest2).erase x = (pre ++ [y]) ++ rest2 := by
        rw [List.erase_append_right _ hxnotin, List.erase_cons_head]
        simp
      have hnd2 : ((pre ++ [y]) ++ rest2).Nodup := by
        have hsub : (pre ++ y :: rest2).Sublist (pre ++ x :: y :: rest2) :=
          ((y :: rest2).sublist_cons_self x).append_left pre
        have := hsub.nodup hnd
        simpa using this
      have hrec := ih rest2 (by simp at hle; omega) (pre ++ [y]) hnd2
      have hlenpre : (pre ++ [y]).length = pre.length + 1 := by simp
      rw [hlenpre] at hrec
      rw [simKillSweep, dif_pos hlt]
      simp only [hget, herase, hrec]
      simp [oddEls, evenEls]

theorem oddEls_length {α : Type} : ∀ (n : Nat) (l : List α), l.length ≤ n →
    (oddEls l).length = l.length / 2 := by
  intro n
  induction n with
  | zero =>
    intro l hle
    have : l = [] := List.length_eq_zero.mp (by omega)
    subst this
    simp [oddEls]
  | succ n ih =>
    intro l hle
    match l with
    | [] => simp [oddEls]
    | [x] => simp [oddEls]
    | x :: y :: xs =>
      have := ih xs (by simp at hle; omega)
      simp only [oddEls, List.length_cons, this]
      omega

theorem evenEls_length {α : Type} : ∀ (n : Nat) (l : List α), l.length ≤ n →
    (evenEls l).length = l.length - l.length / 2 := by
  intro n
  induction n with
  | zero =>
    intro l hle
    have : l = [] := List.length_eq_zero.mp (by omega)
    subst this
    simp [evenEls]
  | succ n ih =>
    intro l hle
    match l with
    | [] => simp [evenEls]
    | [x] => simp [evenEls]
    | x :: y :: xs =>
      have := ih xs (by simp at hle; omega)
      simp only [evenEls, List.length_cons, this]
      omega

/-- C10: invoked with k distinct tracked processes, the pre-start cleanup
loop kills and removes exactly the processes at even (alternating) positions
of the original list — the list is mutated while being iterated — and leaves
the floor(k/2) processes at odd positions still tracked and not killed,
rather than emptying the tracked set. -/
theorem sim_prestart_kill_alternates (l : List Nat) (hnd : l.Nodup) :
    simKillSweep l 0 = (oddEls l, evenEls l) ∧
    (oddEls l).length = l.length / 2 ∧
    (evenEls l).length = l.length - l.length / 2 := by
  refine ⟨?_, oddEls_length l.length l (by omega), evenEls_length l.length l (by omega)⟩
  have := simKillSweep_split l.length l (by omega) [] (by simpa using hnd)
  simpa using this

/-- Witness for C10: five tracked processes; the sweep kills 1, 3 and 5 and
leaves 2 and 4 tracked. -/
theorem sim_prestart_kill_alternates_witness :
    simKillSweep [1, 2, 3, 4, 5] 0 = ([2, 4], [1, 3, 5]) :=
  (sim_prestart_kill_alternates [1, 2, 3, 4, 5] (by decide)).1.trans
    (by simp [oddEls, evenEls])

end NucypherCLI
